import Mathlib

/-
Verification of the tag-synchronization lambdas.

The repository holds three near-duplicate handlers:
  * src/lib/lamda_function.py   — CloudFormation stack → resource tag sync
    (get_all_stack_names, get_stack_tags, get_resources_in_stack,
     find_missing_tags, apply_tags_to_resource, lambda_handler);
  * src/lamda/main.py           — IAM role → customer-managed-policy tag sync
    (get_customer_managed_policies, get_attached_roles_for_policy,
     get_role_tags, get_policy_tags, apply_tags_to_policy,
     copy_role_tags_to_customer_managed_policy);
  * src/lamda/main_test.py      — same pipeline selecting policies by
    description, and recording apply failures in an error list (handler).

Python dicts are embedded as association lists with insertion-order
semantics: `dictInsert` overwrites in place or appends (dict assignment),
`dictUpdate` is Python dict.update (last writer wins), `dictOfList` is the
dict comprehension over a list of pairs.  External AWS calls are embedded
as fields of an environment record returning `Except String _`: an `error`
value stands for the call raising an exception.  A `try/except` in the
source becomes a `match` that maps `error` to the degraded value; a call
site without `try/except` propagates the `error`.  The write collaborators
additionally return the list of external write calls they perform, so that
"invoked exactly once / not invoked" is stated about the code itself.
-/

/-- A LabelSet: a Python dict from tag key to tag value, kept in insertion
order as an association list. -/
abbrev LabelSet := List (String × String)

/-- First-match lookup, i.e. Python `d[k]` / `k in d` on a dict embedded as
an association list. -/
def lookupTag : LabelSet → String → Option String
  | [], _ => none
  | (k, v) :: rest, key => if k = key then some v else lookupTag rest key

/-- Python `key in d`. -/
def containsKey (m : LabelSet) (k : String) : Bool :=
  (lookupTag m k).isSome

/-- Python dict assignment `d[k] = v`: overwrite in place if the key is
present, append otherwise. -/
def dictInsert : LabelSet → String → String → LabelSet
  | [], k, v => [(k, v)]
  | (k1, v1) :: rest, k, v =>
    if k1 = k then (k1, v) :: rest else (k1, v1) :: dictInsert rest k v

/-- Python `d.update(other)`: assign every pair of `other` into `d` in
order (last writer wins on key collision). -/
def dictUpdate (d : LabelSet) (other : LabelSet) : LabelSet :=
  other.foldl (fun acc kv => dictInsert acc kv.1 kv.2) d

/-- Python dict comprehension over a list of (key, value) pairs, e.g.
`(tag[Key] : tag[Value]) for tag in tags`. -/
def dictOfList (l : List (String × String)) : LabelSet :=
  dictUpdate [] l

/-- The dict invariant: keys unique within a set (spec section 3). -/
def nodupKeys (m : LabelSet) : Prop :=
  (m.map Prod.fst).Nodup

instance (m : LabelSet) : Decidable (nodupKeys m) := by
  unfold nodupKeys; infer_instance

/- ===== src/lib/lamda_function.py ===== -/

/-- A resource mapping entry from the tagging API: its ResourceARN and its
current Tags (a list of Key/Value pairs). -/
structure ResourceInfo where
  resourceArn : String
  tags : List (String × String)
deriving DecidableEq

/-- A write call made against the tagging API: (resource ARN, tags passed). -/
abbrev CfWriteCall := String × LabelSet

/-- Environment of external calls for the CloudFormation variant.
`region` is `os.environ.get(AWS_REGION)`; `listStacks` is the paginated
`list_stacks` enumeration (already flattened and status-filtered, giving
the stack names collected by the loop); `stackTags` is `describe_stacks`
reduced to the Tags list of the stack; `stackResources` is the paginated
`get_resources` enumeration; `tagResources` is `tag_resources`.  An
`Except.error` value models the call raising an exception. -/
structure CfEnv where
  region : Option String
  listStacks : Except String (List String)
  stackTags : String → Except String (List (String × String))
  stackResources : String → Except String (List ResourceInfo)
  tagResources : String → LabelSet → Except String Unit

/-- `get_all_stack_names`: collects the stack names from the paginated
listing.  The source has NO try/except here, so a listing exception
propagates to the caller. -/
def get_all_stack_names (env : CfEnv) : Except String (List String) :=
  env.listStacks

/-- `get_stack_tags`: builds the dict of the stack tag list; both except
branches (StackNotExistsException and the generic one) return the empty
dict. -/
def get_stack_tags (env : CfEnv) (stack_name : String) : LabelSet :=
  match env.stackTags stack_name with
  | Except.ok tags => dictOfList tags
  | Except.error _ => []

/-- `get_resources_in_stack`: the paginated `get_resources` enumeration.
The source has NO try/except here either, so a failure propagates. -/
def get_resources_in_stack (env : CfEnv) (stack_name : String) :
    Except String (List ResourceInfo) :=
  env.stackResources stack_name

/-- `find_missing_tags(resource_tags, stack_tags)`: iterates the stack
(source) tags and collects into a fresh dict those whose key is absent
from the resource (target) tags. -/
def find_missing_tags (resource_tags stack_tags : LabelSet) : LabelSet :=
  stack_tags.foldl
    (fun missing kv =>
      if containsKey resource_tags kv.1 then missing
      else dictInsert missing kv.1 kv.2)
    []

/-- `apply_tags_to_resource`: no-op success on an empty tag list (the
inner `if tags_to_apply:` guard), otherwise one `tag_resources` call whose
success or exception becomes the boolean result.  The second component
records the external write calls made. -/
def apply_tags_to_resource (env : CfEnv) (resource_arn : String)
    (tags_to_apply : LabelSet) : Bool × List CfWriteCall :=
  if tags_to_apply.isEmpty then (true, [])
  else
    match env.tagResources resource_arn tags_to_apply with
    | Except.ok _ => (true, [(resource_arn, tags_to_apply)])
    | Except.error _ => (false, [(resource_arn, tags_to_apply)])

/-- Body of the inner resource loop of `lambda_handler`: compute the
resource dict, the missing tags, and apply them when non-empty (the
boolean result only drives logging).  Returns the write calls made. -/
def processResource (env : CfEnv) (stack_tags : LabelSet)
    (r : ResourceInfo) : List CfWriteCall :=
  let resource_tags := dictOfList r.tags
  let missing_tags := find_missing_tags resource_tags stack_tags
  if missing_tags.isEmpty then []
  else (apply_tags_to_resource env r.resourceArn missing_tags).2

/-- Body of the per-stack loop of `lambda_handler`: fetch the stack tags
(degrading to empty), skip the stack entirely when they are empty,
otherwise list its resources (uncaught: may propagate an error) and
process each one. -/
def processStack (env : CfEnv) (stack_name : String) :
    Except String (List CfWriteCall) :=
  let stack_tags := get_stack_tags env stack_name
  if stack_tags.isEmpty then Except.ok []
  else
    match get_resources_in_stack env stack_name with
    | Except.error e => Except.error e
    | Except.ok resources =>
      Except.ok (resources.foldl (fun acc r => acc ++ processResource env stack_tags r) [])

/-- `lambda_handler` of src/lib/lamda_function.py: status 400 when the
region variable is unset; otherwise enumerate the stacks (uncaught) and
process each.  The value is the returned statusCode together with the
external write calls made; `Except.error` models an exception escaping
the entry point. -/
def lambda_handler (env : CfEnv) : Except String (Nat × List CfWriteCall) :=
  match env.region with
  | none => Except.ok (400, [])
  | some _ =>
    match get_all_stack_names env with
    | Except.error e => Except.error e
    | Except.ok all_stack_names =>
      match all_stack_names.foldlM
          (fun acc n => (processStack env n).map (fun c => acc ++ c)) [] with
      | Except.error e => Except.error e
      | Except.ok calls => Except.ok (200, calls)

/- ===== src/lamda/main.py and src/lamda/main_test.py ===== -/

/-- The fields of a listed policy that the handlers read: Arn, PolicyName,
PolicyType and (optional) Description. -/
structure PolicyInfo where
  arn : String
  policyName : String
  policyType : String
  description : Option String
deriving DecidableEq

/-- A `tag_policy` write call: (policy ARN, tags passed). -/
abbrev WriteCall := String × LabelSet

/-- Environment of external IAM calls shared by both policy variants.
`listPolicies` is the paginated `list_policies` enumeration (flattened);
`rolesForPolicy` the attached-role listing reduced to the role names;
`roleTags` / `policyTags` the tag listings; `tagPolicy` the write call.
An `Except.error` value models the call raising an exception. -/
structure IamEnv where
  listPolicies : Except String (List PolicyInfo)
  rolesForPolicy : String → Except String (List String)
  roleTags : String → Except String (List (String × String))
  policyTags : String → Except String (List (String × String))
  tagPolicy : String → LabelSet → Except String Unit

/-- The run summary built by both policy handlers (the timestamp fields of
main_test.py are omitted as glue). -/
structure Results where
  policies_processed : Nat
  policies_tagged : Nat
  errors : List String
deriving DecidableEq

/-- main.py `get_customer_managed_policies`: keep the CustomerManaged
policies; the try/except degrades a listing failure to the empty list. -/
def get_customer_managed_policies (env : IamEnv) : List PolicyInfo :=
  match env.listPolicies with
  | Except.ok ps => ps.filter (fun p => p.policyType == "CustomerManaged")
  | Except.error _ => []

/-- main_test.py target description constant. -/
def TARGET_DESCRIPTION : String := "Cdk customer managed"

/-- main_test.py `get_policies_by_description`: keep the policies whose
Description equals the target; the try/except degrades a listing failure
to the empty list. -/
def get_policies_by_description (env : IamEnv) : List PolicyInfo :=
  match env.listPolicies with
  | Except.ok ps => ps.filter (fun p => p.description == some TARGET_DESCRIPTION)
  | Except.error _ => []

/-- `get_attached_roles_for_policy` (both variants): degrade a failure to
the empty role list.  Only RoleName is read from each role. -/
def get_attached_roles_for_policy (env : IamEnv) (policy_arn policy_name : String) :
    List String :=
  match env.rolesForPolicy policy_arn with
  | Except.ok roles => roles
  | Except.error _ => []

/-- `get_role_tags` (both variants): dict of the role tag list; a failure
degrades to the empty dict. -/
def get_role_tags (env : IamEnv) (role_name : String) : LabelSet :=
  match env.roleTags role_name with
  | Except.ok tags => dictOfList tags
  | Except.error _ => []

/-- `get_policy_tags` (both variants): dict of the policy tag list; a
failure degrades to the empty dict. -/
def get_policy_tags (env : IamEnv) (policy_arn policy_name : String) : LabelSet :=
  match env.policyTags policy_arn with
  | Except.ok tags => dictOfList tags
  | Except.error _ => []

/-- `apply_tags_to_policy` (both variants): no-op success on an empty tag
dict, otherwise one `tag_policy` call whose success or exception becomes
the boolean result.  The second component records the write calls made. -/
def apply_tags_to_policy (env : IamEnv) (policy_arn policy_name : String)
    (tags_to_apply : LabelSet) : Bool × List WriteCall :=
  if tags_to_apply.isEmpty then (true, [])
  else
    match env.tagPolicy policy_arn tags_to_apply with
    | Except.ok _ => (true, [(policy_arn, tags_to_apply)])
    | Except.error _ => (false, [(policy_arn, tags_to_apply)])

/-- The role-tag merge loop of both handlers: `all_role_tags = {}` then
for each attached role `all_role_tags.update(role_tags)` when the fetched
dict is non-empty. -/
def collectRoleTags (env : IamEnv) (attached_roles : List String) : LabelSet :=
  attached_roles.foldl
    (fun all_role_tags role_name =>
      let role_tags := get_role_tags env role_name
      if role_tags.isEmpty then all_role_tags
      else dictUpdate all_role_tags role_tags)
    []

/-- The delta both handlers compute for a policy: the dict comprehension
`(k : v) for k, v in all_role_tags.items() if k not in policy_tags`
(a comprehension over a dict with unique keys is exactly a filter). -/
def tagsToApplyFor (env : IamEnv) (p : PolicyInfo) : LabelSet :=
  (collectRoleTags env (get_attached_roles_for_policy env p.arn p.policyName)).filter
    (fun kv => !containsKey (get_policy_tags env p.arn p.policyName) kv.1)

/-- The error message main_test.py appends on a failed apply (the source
wraps the policy name in single quotes). -/
def tagFailureMessage (policy_name : String) : String :=
  "Failed to tag policy " ++ policy_name ++ "."

/-- Body of the per-policy loop of main_test.py `handler`: count the
policy as processed, skip it when it has no attached roles or no merged
role tags, otherwise apply the computed delta; on apply failure append
one error message, on success bump the tagged counter.  The second
component records the write calls made for this policy. -/
def processPolicyHandler (env : IamEnv) (results : Results) (p : PolicyInfo) :
    Results × List WriteCall :=
  let results1 :=
    { results with policies_processed := results.policies_processed + 1 }
  let attached_roles := get_attached_roles_for_policy env p.arn p.policyName
  if attached_roles.isEmpty then (results1, [])
  else
    let all_role_tags := collectRoleTags env attached_roles
    if all_role_tags.isEmpty then (results1, [])
    else
      let app := apply_tags_to_policy env p.arn p.policyName (tagsToApplyFor env p)
      if app.1 then
        ({ results1 with policies_tagged := results1.policies_tagged + 1 }, app.2)
      else
        ({ results1 with errors := results1.errors ++ [tagFailureMessage p.policyName] },
         app.2)

/-- Body of the per-policy loop of main.py
`copy_role_tags_to_customer_managed_policy`: identical to the main_test.py
loop except that a failed apply records NOTHING (the `if` has no else
branch touching the results). -/
def processPolicyMain (env : IamEnv) (results : Results) (p : PolicyInfo) :
    Results × List WriteCall :=
  let results1 :=
    { results with policies_processed := results.policies_processed + 1 }
  let attached_roles := get_attached_roles_for_policy env p.arn p.policyName
  if attached_roles.isEmpty then (results1, [])
  else
    let all_role_tags := collectRoleTags env attached_roles
    if all_role_tags.isEmpty then (results1, [])
    else
      let app := apply_tags_to_policy env p.arn p.policyName (tagsToApplyFor env p)
      if app.1 then
        ({ results1 with policies_tagged := results1.policies_tagged + 1 }, app.2)
      else (results1, app.2)

/-- main_test.py `handler`: process every policy with the target
description, threading the summary and accumulating the write calls. -/
def handler (env : IamEnv) : Results × List WriteCall :=
  (get_policies_by_description env).foldl
    (fun acc p =>
      let step := processPolicyHandler env acc.1 p
      (step.1, acc.2 ++ step.2))
    (⟨0, 0, []⟩, [])

/-- main.py `copy_role_tags_to_customer_managed_policy`: early return of
the zero summary when the filtered listing is empty, otherwise process
every customer-managed policy. -/
def copy_role_tags_to_customer_managed_policy (env : IamEnv) :
    Results × List WriteCall :=
  let policies := get_customer_managed_policies env
  if policies.isEmpty then (⟨0, 0, []⟩, [])
  else
    policies.foldl
      (fun acc p =>
        let step := processPolicyMain env acc.1 p
        (step.1, acc.2 ++ step.2))
      (⟨0, 0, []⟩, [])

/-- Modelled from the spec: the effect of the external write call
(`tag_policy` / `tag_resources`) on the target label set is not in the
repository; the spec describes it as merging the written labels into the
existing set ("applying a Delta to a TargetObject"), the written value
winning on key collision. -/
def applyDeltaToLabels (target delta : LabelSet) : LabelSet :=
  dictUpdate target delta

/- ===== Concrete environments used to instantiate the claims ===== -/

/-- A listed policy passing both variants' client-side filters. -/
def pol1 : PolicyInfo :=
  ⟨"arn1", "P1", "CustomerManaged", some TARGET_DESCRIPTION⟩

/-- A second such policy. -/
def pol2 : PolicyInfo :=
  ⟨"arn2", "P2", "CustomerManaged", some TARGET_DESCRIPTION⟩

/-- Two targets, one attached role each carrying one tag, and a write call
that fails exactly on the first policy. -/
def envScenario4 : IamEnv where
  listPolicies := Except.ok [pol1, pol2]
  rolesForPolicy := fun _ => Except.ok ["r1"]
  roleTags := fun _ => Except.ok [("team", "x")]
  policyTags := fun _ => Except.ok []
  tagPolicy := fun arn _ =>
    if arn = "arn1" then Except.error "denied" else Except.ok ()

/-- Two roles on the same policy with a colliding tag key: role1 says dev,
role2 (later in enumeration order) says prod. -/
def envC7 : IamEnv where
  listPolicies := Except.ok [pol1]
  rolesForPolicy := fun _ => Except.ok ["role1", "role2"]
  roleTags := fun r =>
    if r = "role1" then Except.ok [("env", "dev")] else Except.ok [("env", "prod")]
  policyTags := fun _ => Except.ok []
  tagPolicy := fun _ _ => Except.ok ()

/-- One policy with two roles, the first of which fails its tag fetch; the
second carries a tag, the policy write succeeds. -/
def envC8 : IamEnv where
  listPolicies := Except.ok [pol1]
  rolesForPolicy := fun _ => Except.ok ["badrole", "r2"]
  roleTags := fun r =>
    if r = "badrole" then Except.error "tagfail" else Except.ok [("team", "x")]
  policyTags := fun arn =>
    if arn = "badarn" then Except.error "pfail" else Except.ok []
  tagPolicy := fun _ _ => Except.ok ()

/-- A CloudFormation environment whose describe-stack call always fails. -/
def cfEnvC8 : CfEnv where
  region := some "r"
  listStacks := Except.ok []
  stackTags := fun _ => Except.error "sfail"
  stackResources := fun _ => Except.ok []
  tagResources := fun _ _ => Except.ok ()

/-- A policy whose attached role exists but has no tags; the policy-tag
read and the write collaborator would both fail if they were reached. -/
def envC9 : IamEnv where
  listPolicies := Except.ok [pol1]
  rolesForPolicy := fun _ => Except.ok ["r1"]
  roleTags := fun _ => Except.ok []
  policyTags := fun _ => Except.error "must not be read"
  tagPolicy := fun _ _ => Except.error "must not be written"

/-- A stack with no tags; the resource listing and the write collaborator
would both fail if they were reached. -/
def cfEnvNoTags : CfEnv where
  region := some "r"
  listStacks := Except.ok ["s1"]
  stackTags := fun _ => Except.ok []
  stackResources := fun _ => Except.error "must not be listed"
  tagResources := fun _ _ => Except.error "must not be written"

/-- A policy whose role tag key already exists on the policy (with a
different value), so the computed delta is empty; the write collaborator
would fail if it were invoked. -/
def envC10 : IamEnv where
  listPolicies := Except.ok [pol1]
  rolesForPolicy := fun _ => Except.ok ["r1"]
  roleTags := fun _ => Except.ok [("team", "x")]
  policyTags := fun _ => Except.ok [("team", "y")]
  tagPolicy := fun _ _ => Except.error "must not be written"

/-- A CloudFormation environment whose stack listing fails. -/
def cfEnvListFail : CfEnv where
  region := some "r"
  listStacks := Except.error "boom"
  stackTags := fun _ => Except.ok []
  stackResources := fun _ => Except.ok []
  tagResources := fun _ _ => Except.ok ()

/-- A CloudFormation environment with one tagged stack whose resource
listing fails. -/
def cfEnvResFail : CfEnv where
  region := some "r"
  listStacks := Except.ok ["s1"]
  stackTags := fun _ => Except.ok [("env", "dev")]
  stackResources := fun _ => Except.error "rboom"
  tagResources := fun _ _ => Except.ok ()

/-- An IAM environment whose policy listing fails. -/
def envListFail : IamEnv where
  listPolicies := Except.error "iboom"
  rolesForPolicy := fun _ => Except.ok []
  roleTags := fun _ => Except.ok []
  policyTags := fun _ => Except.ok []
  tagPolicy := fun _ _ => Except.ok ()

/- ===== Dictionary lemmas ===== -/

theorem isEmpty_eq_false_of_ne {α : Type} {l : List α} (h : l ≠ []) :
    l.isEmpty = false := by
  cases l with
  | nil => exact absurd rfl h
  | cons a t => rfl

theorem lookupTag_eq_none_of_contains_false {m : LabelSet} {k : String}
    (h : containsKey m k = false) : lookupTag m k = none := by
  unfold containsKey at h
  cases hl : lookupTag m k with
  | none => rfl
  | some v => rw [hl] at h; cases h

theorem containsKey_of_mem {m : LabelSet} {kv : String × String}
    (h : kv ∈ m) : containsKey m kv.1 = true := by
  induction m with
  | nil => cases h
  | cons hd tl ih =>
    obtain ⟨k1, v1⟩ := hd
    rcases List.mem_cons.mp h with h | h
    · subst h
      simp [containsKey, lookupTag]
    · by_cases h2 : k1 = kv.1
      · simp [containsKey, lookupTag, h2]
      · have := ih h
        unfold containsKey at this ⊢
        simpa [lookupTag, h2] using this

theorem containsKey_eq_false_of_not_mem_keys {m : LabelSet} {k : String}
    (h : k ∉ m.map Prod.fst) : containsKey m k = false := by
  induction m with
  | nil => rfl
  | cons hd tl ih =>
    obtain ⟨k1, v1⟩ := hd
    simp only [List.map_cons, List.mem_cons, not_or] at h
    have h1 : k1 ≠ k := fun hh => h.1 hh.symm
    have h2 := ih h.2
    unfold containsKey at h2 ⊢
    simpa [lookupTag, h1] using h2

theorem lookupTag_dictInsert (d : LabelSet) (k v key : String) :
    lookupTag (dictInsert d k v) key
      = if k = key then some v else lookupTag d key := by
  induction d with
  | nil => rfl
  | cons hd tl ih =>
    obtain ⟨k1, v1⟩ := hd
    by_cases h1 : k1 = k
    · subst h1
      by_cases h2 : k1 = key <;> simp [dictInsert, lookupTag, h2]
    · by_cases h2 : k1 = key
      · subst h2
        have h3 : ¬k = k1 := fun hh => h1 hh.symm
        simp [dictInsert, h1, lookupTag, h3]
      · simp [dictInsert, h1, lookupTag, h2, ih]

theorem dictInsert_of_not_contains {d : LabelSet} {k : String} (v : String)
    (h : containsKey d k = false) : dictInsert d k v = d ++ [(k, v)] := by
  induction d with
  | nil => rfl
  | cons hd tl ih =>
    obtain ⟨k1, v1⟩ := hd
    by_cases h1 : k1 = k
    · exfalso
      simp [containsKey, lookupTag, h1] at h
    · have h2 : containsKey tl k = false := by
        unfold containsKey at h ⊢
        simpa [lookupTag, h1] using h
      simp [dictInsert, h1, ih h2]

theorem lookupTag_append_right {a : LabelSet} {k : String}
    (h : lookupTag a k = none) (b : LabelSet) :
    lookupTag (a ++ b) k = lookupTag b k := by
  induction a with
  | nil => rfl
  | cons hd tl ih =>
    obtain ⟨k1, v1⟩ := hd
    by_cases h1 : k1 = k
    · simp [lookupTag, h1] at h
    · simp only [lookupTag, h1, if_neg] at h
      simpa [List.cons_append, lookupTag, h1] using ih h

theorem containsKey_append_single_false {acc : LabelSet}
    {kv : String × String} {k : String}
    (h1 : containsKey acc k = false) (h2 : kv.1 ≠ k) :
    containsKey (acc ++ [kv]) k = false := by
  unfold containsKey
  rw [lookupTag_append_right (lookupTag_eq_none_of_contains_false h1)]
  obtain ⟨k1, v1⟩ := kv
  simp [lookupTag, h2]

theorem lookupTag_dictUpdate_not_contains :
    ∀ (b a : LabelSet) (k : String), containsKey b k = false →
      lookupTag (dictUpdate a b) k = lookupTag a k
  | [], _, _, _ => rfl
  | (k1, v1) :: rest, a, k, h => by
    have h1 : k1 ≠ k := by
      intro hh
      simp [containsKey, lookupTag, hh] at h
    have h2 : containsKey rest k = false := by
      unfold containsKey at h ⊢
      simpa [lookupTag, h1] using h
    show lookupTag (dictUpdate (dictInsert a k1 v1) rest) k = lookupTag a k
    rw [lookupTag_dictUpdate_not_contains rest (dictInsert a k1 v1) k h2,
      lookupTag_dictInsert, if_neg h1]

theorem lookupTag_dictUpdate_contains :
    ∀ (b a : LabelSet) (k : String), nodupKeys b → containsKey b k = true →
      lookupTag (dictUpdate a b) k = lookupTag b k
  | [], _, k, _, h => by simp [containsKey, lookupTag] at h
  | (k1, v1) :: rest, a, k, hnd, h => by
    have hnd' : k1 ∉ rest.map Prod.fst ∧ nodupKeys rest := by
      simpa [nodupKeys] using hnd
    by_cases h1 : k1 = k
    · subst h1
      have hrest : containsKey rest k1 = false :=
        containsKey_eq_false_of_not_mem_keys hnd'.1
      show lookupTag (dictUpdate (dictInsert a k1 v1) rest) k1
        = lookupTag ((k1, v1) :: rest) k1
      rw [lookupTag_dictUpdate_not_contains rest (dictInsert a k1 v1) k1 hrest,
        lookupTag_dictInsert]
      simp [lookupTag]
    · have h2 : containsKey rest k = true := by
        unfold containsKey at h ⊢
        simpa [lookupTag, h1] using h
      show lookupTag (dictUpdate (dictInsert a k1 v1) rest) k
        = lookupTag ((k1, v1) :: rest) k
      rw [lookupTag_dictUpdate_contains rest (dictInsert a k1 v1) k hnd'.2 h2]
      simp [lookupTag, h1]

/- ===== find_missing_tags lemmas ===== -/

theorem find_missing_go_eq (t : LabelSet) :
    ∀ (s acc : LabelSet), nodupKeys s →
      (∀ kv ∈ s, containsKey acc kv.1 = false) →
      s.foldl
        (fun missing kv =>
          if containsKey t kv.1 then missing
          else dictInsert missing kv.1 kv.2)
        acc
      = acc ++ s.filter (fun kv => !containsKey t kv.1)
  | [], acc, _, _ => by simp
  | (k1, v1) :: rest, acc, hnd, hacc => by
    have hnd' : k1 ∉ rest.map Prod.fst ∧ nodupKeys rest := by
      simpa [nodupKeys] using hnd
    rw [List.foldl_cons]
    cases ht : containsKey t k1 with
    | true =>
      rw [if_pos rfl]
      rw [find_missing_go_eq t rest acc hnd'.2
        (fun kv hm => hacc kv (List.mem_cons_of_mem _ hm))]
      simp [List.filter_cons, ht]
    | false =>
      have hins : dictInsert acc k1 v1 = acc ++ [(k1, v1)] :=
        dictInsert_of_not_contains v1 (hacc (k1, v1) (List.mem_cons_self _ _))
      have hacc' : ∀ kv ∈ rest, containsKey (acc ++ [(k1, v1)]) kv.1 = false := by
        intro kv hm
        have hne : ((k1, v1) : String × String).1 ≠ kv.1 := by
          intro hh
          have hmem : kv.1 ∈ rest.map Prod.fst := List.mem_map.mpr ⟨kv, hm, rfl⟩
          rw [← hh] at hmem
          exact hnd'.1 hmem
        exact containsKey_append_single_false
          (hacc kv (List.mem_cons_of_mem _ hm)) hne
      simp only [ht, Bool.false_eq_true, if_false, hins]
      rw [find_missing_go_eq t rest (acc ++ [(k1, v1)]) hnd'.2 hacc']
      simp [List.filter_cons, ht]

theorem find_missing_tags_eq_filter (t s : LabelSet) (hs : nodupKeys s) :
    find_missing_tags t s = s.filter (fun kv => !containsKey t kv.1) := by
  unfold find_missing_tags
  rw [find_missing_go_eq t s [] hs (fun kv _ => rfl)]
  simp

theorem lookupTag_filter_not_in (t : LabelSet) :
    ∀ (s : LabelSet) (k : String),
      lookupTag (s.filter (fun kv => !containsKey t kv.1)) k
      = if containsKey t k then none else lookupTag s k
  | [], k => by cases ht : containsKey t k <;> simp [lookupTag, ht]
  | (k1, v1) :: rest, k => by
    by_cases hk : k1 = k
    · subst hk
      cases ht : containsKey t k1 with
      | true => simp [List.filter_cons, ht, lookupTag_filter_not_in t rest k1]
      | false => simp [List.filter_cons, ht, lookupTag]
    · cases ht1 : containsKey t k1 with
      | true =>
        rw [List.filter_cons]
        simp only [ht1, Bool.not_true, Bool.false_eq_true, if_false]
        rw [lookupTag_filter_not_in t rest k]
        cases ht : containsKey t k <;> simp [ht, lookupTag, hk]
      | false =>
        rw [List.filter_cons]
        simp only [ht1, Bool.not_false, if_true]
        show lookupTag ((k1, v1) :: rest.filter (fun kv => !containsKey t kv.1)) k = _
        rw [lookupTag]
        simp only [hk, if_false]
        rw [lookupTag_filter_not_in t rest k]
        cases ht : containsKey t k <;> simp [ht, lookupTag, hk]

theorem find_missing_go_not_contains (t : LabelSet) (k : String)
    (h : containsKey t k = true) :
    ∀ (s acc : LabelSet), containsKey acc k = false →
      containsKey
        (s.foldl
          (fun missing kv =>
            if containsKey t kv.1 then missing
            else dictInsert missing kv.1 kv.2)
          acc) k = false
  | [], _, hacc => hacc
  | (k1, v1) :: rest, acc, hacc => by
    rw [List.foldl_cons]
    cases ht : containsKey t k1 with
    | true =>
      simp only [ht, if_true]
      exact find_missing_go_not_contains t k h rest acc hacc
    | false =>
      have hk1 : k1 ≠ k := by
        intro hh
        rw [hh, h] at ht
        cases ht
      have hacc' : containsKey (dictInsert acc k1 v1) k = false := by
        unfold containsKey
        rw [lookupTag_dictInsert, if_neg hk1,
          lookupTag_eq_none_of_contains_false hacc]
        rfl
      simp only [ht, Bool.false_eq_true, if_false]
      exact find_missing_go_not_contains t k h rest (dictInsert acc k1 v1) hacc'

theorem containsKey_find_missing (t s : LabelSet) (k : String)
    (h : containsKey t k = true) :
    containsKey (find_missing_tags t s) k = false :=
  find_missing_go_not_contains t k h s [] rfl

theorem find_missing_go_all_present (t : LabelSet) :
    ∀ (s acc : LabelSet), (∀ kv ∈ s, containsKey t kv.1 = true) →
      s.foldl
        (fun missing kv =>
          if containsKey t kv.1 then missing
          else dictInsert missing kv.1 kv.2)
        acc = acc
  | [], _, _ => rfl
  | kv :: rest, acc, h => by
    rw [List.foldl_cons]
    have hh := h kv (List.mem_cons_self _ _)
    simp only [hh, if_true]
    exact find_missing_go_all_present t rest acc
      (fun kv' h' => h kv' (List.mem_cons_of_mem _ h'))

theorem find_missing_tags_self (A : LabelSet) : find_missing_tags A A = [] :=
  find_missing_go_all_present A A [] (fun kv hm => containsKey_of_mem hm)

theorem find_missing_tags_empty_target (A : LabelSet) (hA : nodupKeys A) :
    find_missing_tags [] A = A := by
  rw [find_missing_tags_eq_filter [] A hA]
  exact List.filter_eq_self.mpr (fun kv _ => rfl)

/- ===== Claims ===== -/

/-- Claim C1: for LabelSets A (source) and B (target) — dicts, so keys are
unique within A — the delta `computeDelta(A, B)` (that is,
`find_missing_tags(B, A)` and the equivalent dict comprehension of the
policy handlers) holds exactly the keys of A absent from B, each with A's
value; in particular it is empty on A = B and on empty A, and equals A on
empty B. -/
theorem computeDelta_characterization (A B : LabelSet) (k : String)
    (hA : nodupKeys A) :
    lookupTag (find_missing_tags B A) k
      = (if containsKey B k then none else lookupTag A k)
    ∧ find_missing_tags B A = A.filter (fun kv => !containsKey B kv.1)
    ∧ find_missing_tags A A = []
    ∧ find_missing_tags B [] = []
    ∧ find_missing_tags [] A = A := by
  refine ⟨?_, find_missing_tags_eq_filter B A hA, find_missing_tags_self A,
    rfl, find_missing_tags_empty_target A hA⟩
  rw [find_missing_tags_eq_filter B A hA]
  exact lookupTag_filter_not_in B A k

theorem computeDelta_characterization_witness :
    lookupTag (find_missing_tags [("a", "9"), ("b", "2")] [("a", "1"), ("c", "3")]) "c"
      = (if containsKey [("a", "9"), ("b", "2")] "c" then none
         else lookupTag [("a", "1"), ("c", "3")] "c")
    ∧ find_missing_tags [("a", "9"), ("b", "2")] [("a", "1"), ("c", "3")]
      = List.filter (fun kv => !containsKey [("a", "9"), ("b", "2")] kv.1)
          [("a", "1"), ("c", "3")]
    ∧ find_missing_tags [("a", "1"), ("c", "3")] [("a", "1"), ("c", "3")] = []
    ∧ find_missing_tags [("a", "9"), ("b", "2")] [] = []
    ∧ find_missing_tags [] [("a", "1"), ("c", "3")] = [("a", "1"), ("c", "3")] :=
  computeDelta_characterization [("a", "1"), ("c", "3")] [("a", "9"), ("b", "2")]
    "c" (by decide)

/-- Claim C2: the computed delta is disjoint from the target key set, so
the (spec-modelled, additive) write never removes or overwrites an
existing target label: for any key present in both source A and target B,
the target value after applying the delta is unchanged, even when the
values differ. -/
theorem apply_delta_never_overwrites (A B : LabelSet) (k : String)
    (hkA : containsKey A k = true) (hkB : containsKey B k = true) :
    containsKey (find_missing_tags B A) k = false
    ∧ lookupTag (applyDeltaToLabels B (find_missing_tags B A)) k
      = lookupTag B k := by
  have h1 := containsKey_find_missing B A k hkB
  exact ⟨h1, lookupTag_dictUpdate_not_contains (find_missing_tags B A) B k h1⟩

theorem apply_delta_never_overwrites_witness :
    containsKey (find_missing_tags [("k", "vb")] [("k", "va")]) "k" = false
    ∧ lookupTag (applyDeltaToLabels [("k", "vb")]
        (find_missing_tags [("k", "vb")] [("k", "va")])) "k"
      = lookupTag [("k", "vb")] "k" :=
  apply_delta_never_overwrites [("k", "va")] [("k", "vb")] "k"
    (by decide) (by decide)

/-- Claim C5: an empty delta makes both apply functions a successful
no-op: they report success and make no external write call. -/
theorem empty_delta_no_write (env : IamEnv) (cf : CfEnv)
    (parn pname rarn : String) :
    apply_tags_to_policy env parn pname [] = (true, [])
    ∧ apply_tags_to_resource cf rarn [] = (true, []) :=
  ⟨rfl, rfl⟩

/-- Claim C6: a non-empty delta makes both apply functions invoke the
write collaborator exactly once, with the full delta as a single batched
write, and report the collaborator outcome as the boolean result. -/
theorem nonempty_delta_single_batched_write (env : IamEnv) (cf : CfEnv)
    (parn pname rarn : String) (d : LabelSet) (hd : d ≠ []) :
    apply_tags_to_policy env parn pname d
      = ((match env.tagPolicy parn d with
          | Except.ok _ => true
          | Except.error _ => false), [(parn, d)])
    ∧ apply_tags_to_resource cf rarn d
      = ((match cf.tagResources rarn d with
          | Except.ok _ => true
          | Except.error _ => false), [(rarn, d)]) := by
  cases d with
  | nil => exact absurd rfl hd
  | cons kv d' =>
    constructor
    · unfold apply_tags_to_policy
      cases env.tagPolicy parn (kv :: d') <;> rfl
    · unfold apply_tags_to_resource
      cases cf.tagResources rarn (kv :: d') <;> rfl

theorem nonempty_delta_single_batched_write_witness :
    apply_tags_to_policy envScenario4 "arn1" "P1" [("team", "x")]
      = (false, [("arn1", [("team", "x")])])
    ∧ apply_tags_to_resource cfEnvResFail "ra" [("team", "x")]
      = (true, [("ra", [("team", "x")])]) :=
  nonempty_delta_single_batched_write envScenario4 cfEnvResFail
    "arn1" "P1" "ra" [("team", "x")] (by decide)

/-- Claim C7: the role-tag merge is last-writer-wins union in the
enumeration order of the attached roles: on a key collision the later
source wins, and concretely merging S1 = (env, dev) then S2 = (env, prod)
yields (env, prod). -/
theorem merge_last_writer_wins (a b : LabelSet) (k : String)
    (hb : nodupKeys b) (hk : containsKey b k = true) :
    lookupTag (dictUpdate a b) k = lookupTag b k
    ∧ collectRoleTags envC7 ["role1", "role2"] = [("env", "prod")] :=
  ⟨lookupTag_dictUpdate_contains b a k hb hk, by decide⟩

theorem merge_last_writer_wins_witness :
    lookupTag (dictUpdate [("env", "dev")] [("env", "prod")]) "env"
      = lookupTag [("env", "prod")] "env"
    ∧ collectRoleTags envC7 ["role1", "role2"] = [("env", "prod")] :=
  merge_last_writer_wins [("env", "dev")] [("env", "prod")] "env"
    (by decide) (by decide)

/-- Claim C8: a failed label-set fetch degrades to the empty LabelSet
(role tags, policy tags and stack tags alike) and processing continues:
in the concrete run one of two roles fails its tag fetch and the policy
is still processed and tagged from the other role. -/
theorem label_fetch_failure_degrades (env : IamEnv) (cf : CfEnv)
    (role parn pname sname e1 e2 e3 : String)
    (h1 : env.roleTags role = Except.error e1)
    (h2 : env.policyTags parn = Except.error e2)
    (h3 : cf.stackTags sname = Except.error e3) :
    get_role_tags env role = []
    ∧ get_policy_tags env parn pname = []
    ∧ get_stack_tags cf sname = []
    ∧ handler envC8 = (⟨1, 1, []⟩, [("arn1", [("team", "x")])]) := by
  refine ⟨?_, ?_, ?_, ?_⟩
  · simp [get_role_tags, h1]
  · simp [get_policy_tags, h2]
  · simp [get_stack_tags, h3]
  · rfl

theorem label_fetch_failure_degrades_witness :
    get_role_tags envC8 "badrole" = []
    ∧ get_policy_tags envC8 "badarn" "P" = []
    ∧ get_stack_tags cfEnvC8 "s" = []
    ∧ handler envC8 = (⟨1, 1, []⟩, [("arn1", [("team", "x")])]) :=
  label_fetch_failure_degrades envC8 cfEnvC8 "badrole" "badarn" "P" "s"
    "tagfail" "pfail" "sfail" rfl rfl rfl

/-- Claim C9: a target whose merged source label set is empty is skipped
after the processed counter: the policy-tag fetch never happens (the
result is the same for every policyTags collaborator), no write call is
made, and the tagged counter and error list are untouched; likewise a
stack with an empty tag set is skipped without resource listing or
writes. -/
theorem empty_merge_skips_target (env : IamEnv) (r : Results) (p : PolicyInfo)
    (f : String → Except String (List (String × String)))
    (cf : CfEnv) (s : String)
    (g : String → Except String (List ResourceInfo))
    (hmerge : collectRoleTags env
      (get_attached_roles_for_policy env p.arn p.policyName) = [])
    (hs : get_stack_tags cf s = []) :
    processPolicyHandler env r p
      = ({ r with policies_processed := r.policies_processed + 1 }, [])
    ∧ processPolicyMain env r p
      = ({ r with policies_processed := r.policies_processed + 1 }, [])
    ∧ processPolicyHandler { env with policyTags := f } r p
      = processPolicyHandler env r p
    ∧ processStack cf s = Except.ok []
    ∧ processStack { cf with stackResources := g } s = processStack cf s := by
  have stepH : ∀ env' : IamEnv,
      collectRoleTags env'
        (get_attached_roles_for_policy env' p.arn p.policyName) = [] →
      processPolicyHandler env' r p
        = ({ r with policies_processed := r.policies_processed + 1 }, []) := by
    intro env' hm
    simp only [processPolicyHandler]
    cases hA : (get_attached_roles_for_policy env' p.arn p.policyName).isEmpty <;>
      simp [hA, hm]
  have stepM : ∀ env' : IamEnv,
      collectRoleTags env'
        (get_attached_roles_for_policy env' p.arn p.policyName) = [] →
      processPolicyMain env' r p
        = ({ r with policies_processed := r.policies_processed + 1 }, []) := by
    intro env' hm
    simp only [processPolicyMain]
    cases hA : (get_attached_roles_for_policy env' p.arn p.policyName).isEmpty <;>
      simp [hA, hm]
  have stepS : ∀ cf' : CfEnv, get_stack_tags cf' s = [] →
      processStack cf' s = Except.ok [] := by
    intro cf' hm
    simp [processStack, hm]
  refine ⟨stepH env hmerge, stepM env hmerge, ?_, stepS cf hs, ?_⟩
  · exact (stepH { env with policyTags := f } hmerge).trans
      (stepH env hmerge).symm
  · exact (stepS { cf with stackResources := g } hs).trans
      (stepS cf hs).symm

theorem empty_merge_skips_target_witness :
    processPolicyHandler envC9 ⟨0, 0, []⟩ pol1 = (⟨1, 0, []⟩, [])
    ∧ processPolicyMain envC9 ⟨0, 0, []⟩ pol1 = (⟨1, 0, []⟩, [])
    ∧ processPolicyHandler
        { envC9 with policyTags := fun _ => Except.ok [("z", "1")] }
        ⟨0, 0, []⟩ pol1
      = processPolicyHandler envC9 ⟨0, 0, []⟩ pol1
    ∧ processStack cfEnvNoTags "s1" = Except.ok []
    ∧ processStack
        { cfEnvNoTags with stackResources := fun _ => Except.ok [] } "s1"
      = processStack cfEnvNoTags "s1" :=
  empty_merge_skips_target envC9 ⟨0, 0, []⟩ pol1
    (fun _ => Except.ok [("z", "1")]) cfEnvNoTags "s1"
    (fun _ => Except.ok []) (by decide) rfl

/-- Claim C10: a target with a non-empty merged source label set but an
empty computed delta still increments the tagged counter in both policy
variants, although no write call is made. -/
theorem already_tagged_counts_as_tagged (env : IamEnv) (r : Results)
    (p : PolicyInfo)
    (hroles : get_attached_roles_for_policy env p.arn p.policyName ≠ [])
    (hmerge : collectRoleTags env
      (get_attached_roles_for_policy env p.arn p.policyName) ≠ [])
    (hdelta : tagsToApplyFor env p = []) :
    processPolicyHandler env r p
      = ({ r with policies_processed := r.policies_processed + 1,
                  policies_tagged := r.policies_tagged + 1 }, [])
    ∧ processPolicyMain env r p
      = ({ r with policies_processed := r.policies_processed + 1,
                  policies_tagged := r.policies_tagged + 1 }, []) := by
  have hA := isEmpty_eq_false_of_ne hroles
  have hM := isEmpty_eq_false_of_ne hmerge
  constructor
  · simp [processPolicyHandler, hA, hM, hdelta, apply_tags_to_policy]
  · simp [processPolicyMain, hA, hM, hdelta, apply_tags_to_policy]

theorem already_tagged_counts_as_tagged_witness :
    processPolicyHandler envC10 ⟨0, 0, []⟩ pol1 = (⟨1, 1, []⟩, [])
    ∧ processPolicyMain envC10 ⟨0, 0, []⟩ pol1 = (⟨1, 1, []⟩, []) :=
  already_tagged_counts_as_tagged envC10 ⟨0, 0, []⟩ pol1
    (by decide) (by decide) (by decide)

/-- Claim C3, counterexample: in the stack variant the paginated stack
enumeration carries no try/except, so a listing failure is not converted
to an empty sequence — it escapes `lambda_handler` itself. -/
theorem listing_failure_escapes_stack_variant :
    get_all_stack_names cfEnvListFail = Except.error "boom"
    ∧ lambda_handler cfEnvListFail = Except.error "boom" :=
  ⟨rfl, rfl⟩

/-- Claim C3, amended: the two policy variants catch a listing failure,
return the empty sequence and finish the run with zero counters; the
stack variant propagates failures of both the stack listing and the
resource listing out of the entry point. -/
theorem listing_failure_caught_only_in_policy_variants
    (env : IamEnv) (e : String) (h : env.listPolicies = Except.error e)
    (cf : CfEnv) (reg ec : String)
    (hr : cf.region = some reg) (hl : cf.listStacks = Except.error ec)
    (cf2 : CfEnv) (reg2 s er : String) (ts : List (String × String))
    (hr2 : cf2.region = some reg2) (hl2 : cf2.listStacks = Except.ok [s])
    (ht2 : cf2.stackTags s = Except.ok ts) (hne : dictOfList ts ≠ [])
    (hres : cf2.stackResources s = Except.error er) :
    get_customer_managed_policies env = []
    ∧ copy_role_tags_to_customer_managed_policy env = (⟨0, 0, []⟩, [])
    ∧ get_policies_by_description env = []
    ∧ handler env = (⟨0, 0, []⟩, [])
    ∧ lambda_handler cf = Except.error ec
    ∧ lambda_handler cf2 = Except.error er := by
  refine ⟨?_, ?_, ?_, ?_, ?_, ?_⟩
  · simp [get_customer_managed_policies, h]
  · simp [copy_role_tags_to_customer_managed_policy,
      get_customer_managed_policies, h]
  · simp [get_policies_by_description, h]
  · simp [handler, get_policies_by_description, h]
  · simp [lambda_handler, get_all_stack_names, hr, hl]
  · simp [lambda_handler, get_all_stack_names, hr2, hl2, List.foldlM,
      processStack, get_stack_tags, ht2, get_resources_in_stack, hres,
      isEmpty_eq_false_of_ne hne, Except.map, Except.bind, bind]

theorem listing_failure_caught_only_in_policy_variants_witness :
    get_customer_managed_policies envListFail = []
    ∧ copy_role_tags_to_customer_managed_policy envListFail = (⟨0, 0, []⟩, [])
    ∧ get_policies_by_description envListFail = []
    ∧ handler envListFail = (⟨0, 0, []⟩, [])
    ∧ lambda_handler cfEnvListFail = Except.error "boom"
    ∧ lambda_handler cfEnvResFail = Except.error "rboom" :=
  listing_failure_caught_only_in_policy_variants envListFail "iboom" rfl
    cfEnvListFail "r" "boom" rfl rfl
    cfEnvResFail "r" "s1" "rboom" [("env", "dev")] rfl rfl rfl (by decide) rfl

/-- Claim C4, counterexample: in the main.py variant a failed write
records no entry in the error list — a run with one failed apply out of
two targets ends with an empty error list (only the tagged counter shows
the failure). -/
theorem apply_failure_unrecorded_in_main_variant :
    copy_role_tags_to_customer_managed_policy envScenario4
      = (⟨2, 1, []⟩, [("arn1", [("team", "x")]), ("arn2", [("team", "x")])])
    ∧ envScenario4.tagPolicy "arn1" [("team", "x")] = Except.error "denied" :=
  ⟨rfl, rfl⟩

/-- Claim C4, amended: in the main_test.py handler a failed apply records
exactly one error entry for that target, is not retried, and processing
continues (two targets with one failure give processed 2, tagged 1 and a
one-element error list); in the main.py variant the same failure is
recorded nowhere — the error list stays empty. -/
theorem apply_failure_recorded_once_in_handler (env : IamEnv) (r : Results)
    (p : PolicyInfo) (e : String)
    (hroles : get_attached_roles_for_policy env p.arn p.policyName ≠ [])
    (hmerge : collectRoleTags env
      (get_attached_roles_for_policy env p.arn p.policyName) ≠ [])
    (hdelta : tagsToApplyFor env p ≠ [])
    (hfail : env.tagPolicy p.arn (tagsToApplyFor env p) = Except.error e) :
    processPolicyHandler env r p
      = ({ r with policies_processed := r.policies_processed + 1,
                  errors := r.errors ++ [tagFailureMessage p.policyName] },
         [(p.arn, tagsToApplyFor env p)])
    ∧ processPolicyMain env r p
      = ({ r with policies_processed := r.policies_processed + 1 },
         [(p.arn, tagsToApplyFor env p)])
    ∧ handler envScenario4
      = (⟨2, 1, [tagFailureMessage "P1"]⟩,
         [("arn1", [("team", "x")]), ("arn2", [("team", "x")])])
    ∧ copy_role_tags_to_customer_managed_policy envScenario4
      = (⟨2, 1, []⟩, [("arn1", [("team", "x")]), ("arn2", [("team", "x")])]) := by
  have hA := isEmpty_eq_false_of_ne hroles
  have hM := isEmpty_eq_false_of_ne hmerge
  have happ : apply_tags_to_policy env p.arn p.policyName (tagsToApplyFor env p)
      = (false, [(p.arn, tagsToApplyFor env p)]) := by
    simp [apply_tags_to_policy, isEmpty_eq_false_of_ne hdelta, hfail]
  refine ⟨?_, ?_, rfl, rfl⟩
  · simp [processPolicyHandler, hA, hM, happ]
  · simp [processPolicyMain, hA, hM, happ]

theorem apply_failure_recorded_once_in_handler_witness :
    processPolicyHandler envScenario4 ⟨0, 0, []⟩ pol1
      = (⟨1, 0, [tagFailureMessage "P1"]⟩, [("arn1", [("team", "x")])])
    ∧ processPolicyMain envScenario4 ⟨0, 0, []⟩ pol1
      = (⟨1, 0, []⟩, [("arn1", [("team", "x")])])
    ∧ handler envScenario4
      = (⟨2, 1, [tagFailureMessage "P1"]⟩,
         [("arn1", [("team", "x")]), ("arn2", [("team", "x")])])
    ∧ copy_role_tags_to_customer_managed_policy envScenario4
      = (⟨2, 1, []⟩, [("arn1", [("team", "x")]), ("arn2", [("team", "x")])]) :=
  apply_failure_recorded_once_in_handler envScenario4 ⟨0, 0, []⟩ pol1 "denied"
    (by decide) (by decide) (by decide) rfl
